import Mathlib

/-!
Shallow embedding of the zap-operator controllers: the scan reconciler
(`ScanReconciler.Reconcile`), the scheduled-scan reconciler
(`ZapScheduledScanReconciler.Reconcile`), the two alert collectors and the
small pure helpers they use.  External capabilities (cluster API calls, pod
log fetch, remote exec, the cron parser, JSON decoding, sha256) are injected
through explicit environment records; every cluster write call and every
metric emission is recorded as an `Effect` in the order the Go code performs
it, and every reconcile returns the same `(result, error)` pair as the Go
function.
-/

/-- Whether a character has the Unicode White_Space property
(Go `unicode.IsSpace`). -/
def goIsSpace (c : Char) : Bool :=
  let n := c.toNat
  decide ((0x9 ≤ n ∧ n ≤ 0xD) ∨ n = 0x20 ∨ n = 0x85 ∨ n = 0xA0 ∨ n = 0x1680 ∨
    (0x2000 ≤ n ∧ n ≤ 0x200A) ∨ n = 0x2028 ∨ n = 0x2029 ∨ n = 0x202F ∨
    n = 0x205F ∨ n = 0x3000)

/-- Go `strings.TrimSpace`: drop leading and trailing white space. -/
def goTrimSpace (s : String) : String :=
  String.mk (((s.toList.dropWhile goIsSpace).reverse.dropWhile goIsSpace).reverse)

/-- Embeds `normalizeRisk` (scan controller): a switch on the trimmed risk
code; the default branch returns the original, untrimmed code. -/
def normalizeRisk (riskCode : String) : String :=
  let t := goTrimSpace riskCode
  if t = "0" then "informational"
  else if t = "1" then "low"
  else if t = "2" then "medium"
  else if t = "3" then "high"
  else riskCode

/-- Whether `needle` occurs at the start of `hay`. -/
def matchesAt : List Char → List Char → Bool
  | [], _ => true
  | _ :: _, [] => false
  | a :: as, b :: bs => if a = b then matchesAt as bs else false

/-- Go `strings.Index` on character lists: index of the first occurrence of
`needle` in `hay` (`none` for Go -1). -/
def goIndex : List Char → List Char → Option Nat
  | [], needle => if matchesAt needle [] then some 0 else none
  | c :: t, needle =>
    if matchesAt needle (c :: t) then some 0
    else (goIndex t needle).map (fun k => k + 1)

/-- The reporter sidecar marker searched for in pod logs. -/
def beginMarker : List Char := "zap-operator: begin zap.json".toList

/-- The marker/brace extraction step of `collectAlertsFromJobLogs`:
find the begin marker, then take the text from the first left brace
(character 123) after it as the JSON candidate. -/
def extractCandidate (text : String) : Option String :=
  let cs := text.toList
  match goIndex cs beginMarker with
  | none => none
  | some i =>
    let rest := cs.drop i
    match goIndex rest [Char.ofNat 123] with
    | none => none
    | some j => some (String.mk (rest.drop j))

/-- One alert entry of the decoded ZAP JSON report. -/
structure ZapReportAlert where
  pluginid : String
  riskcode : String
deriving DecidableEq

/-- One site entry of the decoded ZAP JSON report. -/
structure ZapSite where
  alerts : List ZapReportAlert
deriving DecidableEq

/-- The decoded shape of a ZAP JSON report (`zapJSONReport`). -/
structure zapJSONReport where
  site : List ZapSite
deriving DecidableEq

/-- Embeds `pluginAlert`: one aggregated finding. -/
structure pluginAlert where
  PluginID : String
  Risk : String
  Count : Nat
deriving DecidableEq

/-- Embeds `parsedAlerts`: the aggregate produced by a collection pass. -/
structure parsedAlerts where
  Total : Nat
  ByPlugin : List pluginAlert
deriving DecidableEq

/-- One step of the Go accumulator map `acc[key]`: bump the count stored
under `key`, creating the entry (with the first occurrence's plugin id and
risk) when absent.  The association list keeps insertion order. -/
def bumpKey (key pid risk : String) :
    List (String × pluginAlert) → List (String × pluginAlert)
  | [] => [(key, ⟨pid, risk, 1⟩)]
  | (k, a) :: rest =>
    if k = key then (k, ⟨a.PluginID, a.Risk, a.Count + 1⟩) :: rest
    else (k, a) :: bumpKey key pid risk rest

/-- Accumulation state of one collection pass: running total and the keyed
per-plugin accumulator. -/
abbrev AlertAcc := Nat × List (String × pluginAlert)

/-- Fold one alert into the accumulation state, exactly as the inner loop
body of both collectors: `all.Total++`, normalize the risk, key on
`pid ++ ":" ++ risk`, bump. -/
def accumAlert (a : ZapReportAlert) (st : AlertAcc) : AlertAcc :=
  let pid := a.pluginid
  let risk := normalizeRisk a.riskcode
  let key := pid ++ ":" ++ risk
  (st.1 + 1, bumpKey key pid risk st.2)

/-- Fold a whole decoded report into the accumulation state (the nested
site/alert loops of both collectors). -/
def accumReport (r : zapJSONReport) (st : AlertAcc) : AlertAcc :=
  r.site.foldl (fun st0 site => site.alerts.foldl (fun st1 a => accumAlert a st1) st0) st

/-- A pod as the collectors see it: namespace, name and pod phase. -/
structure PodInfo where
  ns : String
  name : String
  phase : String
deriving DecidableEq

/-- Injected capabilities of the log-scrape collector: the pod-log fetch
(`getPodLogs`, taking namespace, pod name, container) and the JSON decoding
of the candidate text into the report shape (Go `encoding/json`). -/
structure LogCollectDeps where
  getPodLogs : String → String → String → Except String String
  decode : String → Except String zapJSONReport

/-- The per-pod body of `collectAlertsFromJobLogs` after a successful log
fetch: marker absent, or no brace, or decode failure, all leave the
accumulator unchanged (the Go `continue`); otherwise the report is folded
in. -/
def processLogText (decode : String → Except String zapJSONReport)
    (text : String) (st : AlertAcc) : AlertAcc :=
  match extractCandidate text with
  | none => st
  | some cand =>
    match decode cand with
    | .error _ => st
    | .ok report => accumReport report st

/-- The pod loop of `collectAlertsFromJobLogs`: a log-fetch error aborts the
whole pass with that error; any parse trouble skips the pod. -/
def collectLogsLoop (deps : LogCollectDeps) : List PodInfo → AlertAcc →
    Except String AlertAcc
  | [], st => .ok st
  | p :: rest, st =>
    match deps.getPodLogs p.ns p.name "reporter" with
    | .error e => .error e
    | .ok text => collectLogsLoop deps rest (processLogText deps.decode text st)

/-- Embeds `ScanReconciler.collectAlertsFromJobLogs`: list the pods of the
job (result injected as `podsResult`), return empty on no pods, then run the
pod loop and package the accumulator. -/
def ScanReconciler.collectAlertsFromJobLogs (deps : LogCollectDeps)
    (podsResult : Except String (List PodInfo)) : Except String parsedAlerts :=
  match podsResult with
  | .error e => .error e
  | .ok pods =>
    if pods = [] then .ok ⟨0, []⟩
    else
      match collectLogsLoop deps pods (0, []) with
      | .error e => .error e
      | .ok st => .ok ⟨st.1, st.2.map Prod.snd⟩

/-- Injected capabilities of the exec-read collector: the remote file read
(`readFileFromPod`, taking namespace, pod name, container, path) and JSON
unmarshalling. -/
structure PodReportDeps where
  readFileFromPod : String → String → String → String → Except String String
  decode : String → Except String zapJSONReport

/-- The pod loop of `collectAlertsFromPodReport`: non-Running pods are
skipped; for a Running pod the `picked` flag is set and both a read failure
and a decode failure abort the pass with that error. -/
def collectPodReportLoop (deps : PodReportDeps) : List PodInfo →
    Bool × AlertAcc → Except String (Bool × AlertAcc)
  | [], st => .ok st
  | p :: rest, st =>
    if p.phase ≠ "Running" then collectPodReportLoop deps rest st
    else
      match deps.readFileFromPod p.ns p.name "zap" "/zap/wrk/zap.json" with
      | .error e => .error e
      | .ok b =>
        match deps.decode b with
        | .error e => .error e
        | .ok report => collectPodReportLoop deps rest (true, accumReport report st.2)

/-- Embeds `ScanReconciler.collectAlertsFromPodReport`: empty pod list gives
an empty aggregate; if no Running pod was picked the result is likewise the
empty aggregate; read/decode failures of a Running pod are fatal. -/
def ScanReconciler.collectAlertsFromPodReport (deps : PodReportDeps)
    (podsResult : Except String (List PodInfo)) : Except String parsedAlerts :=
  match podsResult with
  | .error e => .error e
  | .ok pods =>
    if pods = [] then .ok ⟨0, []⟩
    else
      match collectPodReportLoop deps pods (false, 0, []) with
      | .error e => .error e
      | .ok st => if st.1 then .ok ⟨st.2.1, st.2.2.map Prod.snd⟩ else .ok ⟨0, []⟩

/-- A job condition record (type, status, reason, message, last transition
time as Unix seconds; 0 is the Go zero time). -/
structure JobCondition where
  condType : String
  status : String
  reason : String
  message : String
  lastTransitionTime : Int
deriving DecidableEq

/-- The observed batch Job as the reconciler reads it: name, optional
completion time, condition list. -/
structure JobResource where
  name : String
  completionTime : Option Int
  conditions : List JobCondition
deriving DecidableEq

/-- The condition loop of `isJobComplete`. -/
def isJobCompleteAux : List JobCondition → Bool × Bool
  | [] => (false, false)
  | c :: rest =>
    if c.condType = "Complete" ∧ c.status = "True" then (true, true)
    else if c.condType = "Failed" ∧ c.status = "True" then (true, false)
    else isJobCompleteAux rest

/-- Embeds `isJobComplete`: scan the condition list in order; the first true
Complete condition wins as `(complete, succeeded)`, the first true Failed
condition wins as `(complete, not succeeded)`. -/
def isJobComplete (job : JobResource) : Bool × Bool :=
  isJobCompleteAux job.conditions

/-- The condition fallback loop of `jobFinishedTime`. -/
def jobFinishedTimeAux : List JobCondition → Option Int
  | [] => none
  | c :: rest =>
    if (c.condType = "Complete" ∨ c.condType = "Failed") ∧ c.lastTransitionTime ≠ 0 then
      some c.lastTransitionTime
    else jobFinishedTimeAux rest

/-- Embeds `jobFinishedTime`: the job's completion time when present,
otherwise inferred from the first terminal condition with a nonzero
transition time. -/
def jobFinishedTime (job : JobResource) : Option Int :=
  match job.completionTime with
  | some t => some t
  | none => jobFinishedTimeAux job.conditions

/-- The condition loop of `jobFailedReason`: the first true Failed condition
with a nonempty message or reason supplies the text; a true Failed condition
with both empty lets the loop continue. -/
def jobFailedReasonAux : List JobCondition → Option String
  | [] => none
  | c :: rest =>
    if c.condType = "Failed" ∧ c.status = "True" then
      if c.message ≠ "" then some c.message
      else if c.reason ≠ "" then some c.reason
      else jobFailedReasonAux rest
    else jobFailedReasonAux rest

/-- Embeds `jobFailedReason`, with the final fallback string. -/
def jobFailedReason (job : JobResource) : String :=
  match jobFailedReasonAux job.conditions with
  | some s => s
  | none => "job " ++ job.name ++ " failed"

/-- Embeds `jobNamespaceFor`: the spec override when set and nonempty,
otherwise the scan's own namespace. -/
def jobNamespaceFor (scanNs : String) (jobNamespace : Option String) : String :=
  match jobNamespace with
  | some j => if j ≠ "" then j else scanNs
  | none => scanNs

/-- Embeds `scanJobNameWithTimestamp`; the 8-hex-digit sha256 prefix is an
injected hash capability `hash8` (Go crypto/sha256 + hex). -/
def scanJobNameWithTimestamp (hash8 : String → String) (scanName : String)
    (creationTimestamp : Int) : String :=
  "zap-scan-" ++ hash8 scanName ++ "-" ++ toString creationTimestamp

/-- The ZapScan spec fields the reconcilers read. -/
structure ScanSpec where
  target : String
  jobNamespace : Option String
deriving DecidableEq

/-- Embeds `ZapScanStatus`. -/
structure ScanStatus where
  phase : String
  jobName : String
  startedAt : Option Int
  finishedAt : Option Int
  alertsFound : Int
  lastError : String
deriving DecidableEq

/-- A ZapScan resource; `controllerRef` models the controller owner
reference (the owning ZapScheduledScan's name), used by `activeScans`. -/
structure ZapScan where
  name : String
  inNamespace : String
  creationTimestamp : Int
  controllerRef : Option String
  spec : ScanSpec
  status : ScanStatus
deriving DecidableEq

/-- Outcome of a cluster Get, as the reconcilers branch on it. -/
inductive FetchResult (α : Type) where
  | notFound
  | apiError (e : String)
  | found (v : α)

/-- Outcome of a cluster Create call. -/
inductive CreateResult where
  | success
  | alreadyExists
  | apiError (e : String)
deriving DecidableEq

/-- Every externally observable call the reconcilers make, in program
order: cluster writes and metric emissions. -/
inductive Effect where
  | createJobCall (name ns : String)
  | scanStatusUpdate (st : ScanStatus)
  | createScanCall (name ns : String)
  | deleteScanCall (name : String)
  | schedStatusUpdate (lastScheduleTime : Option Int)
  | incScansInProgress (ns : String)
  | incAlert (ns target risk pluginId : String) (count : Nat)
  | incScanRun (ns target status : String)
  | observeScanDuration (ns target : String) (seconds : Int)
  | setLastScanTimestamp (ns target status : String) (t : Int)
  | decScansInProgress (ns : String)
deriving DecidableEq

/-- Whether an effect is a metric emission. -/
def Effect.isMetric : Effect → Bool
  | .incScansInProgress _ => true
  | .incAlert _ _ _ _ _ => true
  | .incScanRun _ _ _ => true
  | .observeScanDuration _ _ _ => true
  | .setLastScanTimestamp _ _ _ _ => true
  | .decScansInProgress _ => true
  | _ => false

/-- Whether an effect is a scan status-update call. -/
def Effect.isScanStatusUpdate : Effect → Bool
  | .scanStatusUpdate _ => true
  | _ => false

/-- Whether an effect is a scheduled-scan status-update call. -/
def Effect.isSchedStatusUpdate : Effect → Bool
  | .schedStatusUpdate _ => true
  | _ => false

/-- The reconcile result: requeue delay in seconds, 0 meaning none
(`defaultPollInterval` is 10). -/
structure ReconcileResult where
  requeueAfter : Int
deriving DecidableEq

/-- The environment of one `ScanReconciler.Reconcile` pass: the outcomes of
each injected external interaction, in the order the pass can reach them. -/
structure ScanEnv where
  getScan : FetchResult ZapScan
  getJob : FetchResult JobResource
  setOwnerRef : Option String
  createJob : CreateResult
  statusUpdate : Option String
  podsForJob : Except String (List PodInfo)
  logDeps : LogCollectDeps
  hash8 : String → String
  now : Int

/-- The job-creation branch of `ScanReconciler.Reconcile` (job lookup came
back not-found): skip if the scan already finished, otherwise set the owner
reference, create the job (already-exists is success), write the Running
status and, only when that write succeeded, bump the in-progress counter
and re-poll. -/
def ScanReconciler.reconcileCreateBranch (env : ScanEnv) (scan : ZapScan)
    (jobName jobNS : String) : Except String ReconcileResult × List Effect :=
  if scan.status.finishedAt ≠ none then (.ok ⟨0⟩, [])
  else
    match env.setOwnerRef with
    | some e => (.error e, [])
    | none =>
      match env.createJob with
      | .apiError e => (.error e, [.createJobCall jobName jobNS])
      | _ =>
        let st : ScanStatus :=
          { scan.status with
              phase := "Running"
              jobName := jobName
              startedAt := some env.now
              finishedAt := none
              lastError := "" }
        match env.statusUpdate with
        | some e => (.error e, [.createJobCall jobName jobNS, .scanStatusUpdate st])
        | none =>
          (.ok ⟨10⟩,
            [.createJobCall jobName jobNS, .scanStatusUpdate st,
             .incScansInProgress scan.inNamespace])

/-- The terminal branch of `ScanReconciler.Reconcile` (the job is complete,
`succeeded` telling the outcome): determine the finish time, collect alerts
(non-fatal), compute the duration, fix the final phase and last error,
persist the status first, and only after a successful persist emit the
per-finding counters, the outcome counter, the duration observation, the
last-run gauge and the in-progress decrement. -/
def ScanReconciler.reconcileTerminalBranch (env : ScanEnv) (scan : ZapScan)
    (job : JobResource) (succeeded : Bool) :
    Except String ReconcileResult × List Effect :=
  let fin := jobFinishedTime job
  let st1 :=
    match fin with
    | some t => { scan.status with finishedAt := some t }
    | none => scan.status
  let collected := ScanReconciler.collectAlertsFromJobLogs env.logDeps env.podsForJob
  let st2 :=
    match collected with
    | .error e => { st1 with lastError := e }
    | .ok alerts => { st1 with alertsFound := Int.ofNat alerts.Total }
  let durationSeconds : Int :=
    match scan.status.startedAt, fin with
    | some s, some f => f - s
    | _, _ => 0
  let st3 :=
    if succeeded then { st2 with phase := "Succeeded", lastError := "" }
    else
      { st2 with
          phase := "Failed"
          lastError := if st2.lastError = "" then jobFailedReason job else st2.lastError }
  let finalStatus := if succeeded then "succeeded" else "failed"
  match env.statusUpdate with
  | some e => (.error e, [.scanStatusUpdate st3])
  | none =>
    let alertEffs :=
      match collected with
      | .error _ => []
      | .ok alerts =>
        alerts.ByPlugin.map fun a =>
          Effect.incAlert scan.inNamespace scan.spec.target a.Risk a.PluginID a.Count
    (.ok ⟨0⟩,
      .scanStatusUpdate st3 :: alertEffs ++
        [.incScanRun scan.inNamespace scan.spec.target finalStatus,
         .observeScanDuration scan.inNamespace scan.spec.target durationSeconds,
         .setLastScanTimestamp scan.inNamespace scan.spec.target finalStatus env.now,
         .decScansInProgress scan.inNamespace])

/-- The found-job part of `ScanReconciler.Reconcile`: evaluate completion;
an incomplete job refreshes the Running phase (the update error is discarded
by the Go code) and re-polls; a complete job enters the terminal branch. -/
def ScanReconciler.reconcileFoundJob (env : ScanEnv) (scan : ZapScan)
    (job : JobResource) : Except String ReconcileResult × List Effect :=
  let cs := isJobComplete job
  if cs.1 = false then
    if scan.status.phase = "" ∨ scan.status.phase = "Running" then
      let st := { scan.status with phase := "Running" }
      (.ok ⟨10⟩, [.scanStatusUpdate st])
    else (.ok ⟨10⟩, [])
  else ScanReconciler.reconcileTerminalBranch env scan job cs.2

/-- Embeds `ScanReconciler.Reconcile` as a pure pass over its environment,
returning the Go `(ctrl.Result, error)` pair and the ordered list of
externally observable calls it performed. -/
def ScanReconciler.Reconcile (env : ScanEnv) :
    Except String ReconcileResult × List Effect :=
  match env.getScan with
  | .notFound => (.ok ⟨0⟩, [])
  | .apiError e => (.error e, [])
  | .found scan =>
    let jobNS := jobNamespaceFor scan.inNamespace scan.spec.jobNamespace
    if scan.status.phase = "Succeeded" ∨ scan.status.phase = "Failed" then
      (.ok ⟨0⟩, [])
    else
      let jobName :=
        if scan.status.jobName = "" then
          scanJobNameWithTimestamp env.hash8 scan.name scan.creationTimestamp
        else scan.status.jobName
      match env.getJob with
      | .notFound => ScanReconciler.reconcileCreateBranch env scan jobName jobNS
      | .apiError e => (.error e, [])
      | .found job => ScanReconciler.reconcileFoundJob env scan job

/-- The ZapScheduledScan spec fields the reconciler reads. -/
structure SchedSpec where
  schedule : String
  suspend : Option Bool
  concurrencyPolicy : Option String
deriving DecidableEq

/-- Embeds `ZapScheduledScanStatus`. -/
structure SchedStatus where
  lastScheduleTime : Option Int
deriving DecidableEq

/-- A ZapScheduledScan resource. -/
structure ZapScheduledScan where
  name : String
  inNamespace : String
  spec : SchedSpec
  status : SchedStatus
deriving DecidableEq

/-- Embeds `ZapScheduledScanReconciler.activeScans`: of the listed scans in
the namespace, keep those controlled by this schedule whose phase is
Running or empty, in list order. -/
def ZapScheduledScanReconciler.activeScans (sched : ZapScheduledScan)
    (listResult : Except String (List ZapScan)) : Except String (List ZapScan) :=
  match listResult with
  | .error e => .error e
  | .ok items =>
    .ok (items.filter fun s =>
      s.controllerRef = some sched.name ∧
        (s.status.phase = "Running" ∨ s.status.phase = ""))

/-- The concurrency-policy default: nil or empty spec value means Allow. -/
def resolveConcurrencyPolicy : Option String → String
  | some p => if p ≠ "" then p else "Allow"
  | none => "Allow"

/-- The environment of one `ZapScheduledScanReconciler.Reconcile` pass.
`cronParse` injects `cron.ParseStandard` (the robfig/cron library): an
error, or the parsed schedule as its `Next` function on Unix seconds. -/
structure SchedEnv where
  getSched : FetchResult ZapScheduledScan
  cronParse : Except String (Int → Int)
  listScans : Except String (List ZapScan)
  setOwnerRef : Option String
  createScan : CreateResult
  statusUpdate : Option String
  now : Int

/-- Embeds `ZapScheduledScanReconciler.Reconcile` as a pure pass over its
environment, returning the Go `(ctrl.Result, error)` pair and the ordered
list of externally observable calls it performed.  Both status updates in
this reconciler discard the update error (Go assigns it to the blank
identifier), so `env.statusUpdate` never influences this function. -/
def ZapScheduledScanReconciler.Reconcile (env : SchedEnv) :
    Except String ReconcileResult × List Effect :=
  match env.getSched with
  | .notFound => (.ok ⟨0⟩, [])
  | .apiError e => (.error e, [])
  | .found sched =>
    if sched.spec.suspend = some true then (.ok ⟨0⟩, [])
    else
      match env.cronParse with
      | .error e => (.error ("invalid schedule: " ++ e), [])
      | .ok next =>
        let last := sched.status.lastScheduleTime.getD 0
        let nxt := next last
        if env.now < nxt then (.ok ⟨nxt - env.now⟩, [])
        else
          let policy := resolveConcurrencyPolicy sched.spec.concurrencyPolicy
          match ZapScheduledScanReconciler.activeScans sched env.listScans with
          | .error e => (.error e, [])
          | .ok active =>
            if policy = "Forbid" ∧ active ≠ [] then
              (.ok ⟨60⟩, [.schedStatusUpdate (some env.now)])
            else
              let deleteEffs :=
                if policy = "Replace" ∧ active ≠ [] then
                  active.map fun s => Effect.deleteScanCall s.name
                else []
              let childName := sched.name ++ "-" ++ toString env.now
              match env.setOwnerRef with
              | some e => (.error e, deleteEffs)
              | none =>
                match env.createScan with
                | .alreadyExists =>
                  (.ok ⟨5⟩, deleteEffs ++ [.createScanCall childName sched.inNamespace])
                | .apiError e =>
                  (.error e, deleteEffs ++ [.createScanCall childName sched.inNamespace])
                | .success =>
                  (.ok ⟨5⟩,
                    deleteEffs ++
                      [.createScanCall childName sched.inNamespace,
                       .schedStatusUpdate (some env.now)])

/-- A condition that decides the scan outcome: type Complete or Failed with
true status. -/
def isTerminalTrueCond (c : JobCondition) : Bool :=
  decide ((c.condType = "Complete" ∨ c.condType = "Failed") ∧ c.status = "True")

/-- C7: the completion detector scans the condition list in order and the
first condition that is Complete-with-true-status (success) or
Failed-with-true-status (failure) wins; when both kinds are present the
earlier one in list order decides, and with neither the unit is not
complete. -/
theorem isJobComplete_first_terminal_wins (job : JobResource) :
    isJobComplete job =
      match job.conditions.find? isTerminalTrueCond with
      | some c => (true, if c.condType = "Complete" then true else false)
      | none => (false, false) := by
  unfold isJobComplete
  generalize job.conditions = l
  induction l with
  | nil => rfl
  | cons c rest ih =>
    by_cases h1 : c.condType = "Complete" ∧ c.status = "True"
    · simp [isJobCompleteAux, List.find?, isTerminalTrueCond, h1.1, h1.2]
    · by_cases h2 : c.condType = "Failed" ∧ c.status = "True"
      · have hne : ¬ c.condType = "Complete" := by
          intro hc
          exact h1 ⟨hc, h2.2⟩
        simp [isJobCompleteAux, List.find?, isTerminalTrueCond, h2.1, h2.2, h1, hne]
      · have hp : isTerminalTrueCond c = false := by
          simp only [isTerminalTrueCond, decide_eq_false_iff_not]
          intro hand
          rcases hand.1 with hc | hf
          · exact h1 ⟨hc, hand.2⟩
          · exact h2 ⟨hf, hand.2⟩
        simp [isJobCompleteAux, List.find?, hp, h1, h2, ih]

/-- C9 counterexample: the input " 0 " is none of the four numeric codes,
yet it does not pass through unchanged — the switch trims white space
first, so it maps to "informational". -/
theorem normalizeRisk_passthrough_cex :
    normalizeRisk " 0 " = "informational" ∧
    " 0 " ≠ "0" ∧ " 0 " ≠ "1" ∧ " 0 " ≠ "2" ∧ " 0 " ≠ "3" ∧
    normalizeRisk " 0 " ≠ " 0 " := by
  refine ⟨by decide, by decide, by decide, by decide, by decide, by decide⟩

/-- C9 amended: risk normalization is total; a code whose white-space-trimmed
form is "0", "1", "2" or "3" maps to informational, low, medium or high
respectively, and any code whose trimmed form is none of these passes
through unchanged. -/
theorem normalizeRisk_total (s : String) :
    (goTrimSpace s = "0" → normalizeRisk s = "informational") ∧
    (goTrimSpace s = "1" → normalizeRisk s = "low") ∧
    (goTrimSpace s = "2" → normalizeRisk s = "medium") ∧
    (goTrimSpace s = "3" → normalizeRisk s = "high") ∧
    (goTrimSpace s ≠ "0" → goTrimSpace s ≠ "1" → goTrimSpace s ≠ "2" →
      goTrimSpace s ≠ "3" → normalizeRisk s = s) := by
  refine ⟨?_, ?_, ?_, ?_, ?_⟩
  · intro h
    simp [normalizeRisk, h]
  · intro h
    simp [normalizeRisk, h]
  · intro h
    simp [normalizeRisk, h]
  · intro h
    simp [normalizeRisk, h]
  · intro h0 h1 h2 h3
    simp [normalizeRisk, h0, h1, h2, h3]

/-- Witness for the amended C9 theorem at concrete codes. -/
theorem normalizeRisk_total_witness :
    normalizeRisk "2" = "medium" ∧ normalizeRisk "7" = "7" :=
  ⟨(normalizeRisk_total "2").2.2.1 (by decide),
   (normalizeRisk_total "7").2.2.2.2 (by decide) (by decide) (by decide) (by decide)⟩

/-- C1: a reconcile pass over a ScanRequest whose phase is already terminal
performs no external call at all (no create, no update, no metric) and
returns success with no requeue; in particular nothing it does can ever
change the terminal phase. -/
theorem scan_terminal_reconcile_noop (env : ScanEnv) (scan : ZapScan)
    (hfound : env.getScan = .found scan)
    (hterm : scan.status.phase = "Succeeded" ∨ scan.status.phase = "Failed") :
    ScanReconciler.Reconcile env = (.ok ⟨0⟩, []) := by
  unfold ScanReconciler.Reconcile
  rw [hfound]
  simp [hterm]

/-- Fixed injected log-collector capabilities used by concrete witness
environments. -/
def trivialLogDeps : LogCollectDeps :=
  ⟨fun _ _ _ => .error "no logs", fun _ => .error "no decode"⟩

/-- A concrete ZapScan already in the Succeeded phase. -/
def terminalScanW : ZapScan :=
  { name := "s1", inNamespace := "ns1", creationTimestamp := 10,
    controllerRef := none, spec := ⟨"http://target", none⟩,
    status := ⟨"Succeeded", "zap-scan-aaaaaaaa-10", some 10, some 20, 3, ""⟩ }

/-- A concrete environment whose fetched scan is terminal. -/
def envTerminalW : ScanEnv :=
  { getScan := .found terminalScanW, getJob := .notFound, setOwnerRef := none,
    createJob := .success, statusUpdate := none, podsForJob := .ok [],
    logDeps := trivialLogDeps, hash8 := fun _ => "00000000", now := 100 }

/-- Witness for C1 at a concrete terminal scan. -/
theorem scan_terminal_reconcile_noop_witness :
    ScanReconciler.Reconcile envTerminalW = (.ok ⟨0⟩, []) :=
  scan_terminal_reconcile_noop envTerminalW terminalScanW rfl (Or.inl rfl)


/-- A pass whose scan is non-terminal and whose job lookup found the job is
exactly the found-job part. -/
theorem ScanReconciler.reconcile_eq_foundJob (env : ScanEnv) (scan : ZapScan)
    (job : JobResource)
    (hfound : env.getScan = .found scan)
    (hnterm : ¬ (scan.status.phase = "Succeeded" ∨ scan.status.phase = "Failed"))
    (hjob : env.getJob = .found job) :
    ScanReconciler.Reconcile env = ScanReconciler.reconcileFoundJob env scan job := by
  unfold ScanReconciler.Reconcile
  rw [hfound, hjob]
  simp [hnterm]

/-- A pass whose job is complete is exactly the terminal branch. -/
theorem ScanReconciler.reconcile_eq_terminal (env : ScanEnv) (scan : ZapScan)
    (job : JobResource)
    (hfound : env.getScan = .found scan)
    (hnterm : ¬ (scan.status.phase = "Succeeded" ∨ scan.status.phase = "Failed"))
    (hjob : env.getJob = .found job)
    (hcomplete : (isJobComplete job).1 = true) :
    ScanReconciler.Reconcile env =
      ScanReconciler.reconcileTerminalBranch env scan job (isJobComplete job).2 := by
  rw [ScanReconciler.reconcile_eq_foundJob env scan job hfound hnterm hjob]
  unfold ScanReconciler.reconcileFoundJob
  simp [hcomplete]

/-- A pass whose scan is non-terminal and whose job lookup came back
not-found is exactly the job-creation branch. -/
theorem ScanReconciler.reconcile_eq_create (env : ScanEnv) (scan : ZapScan)
    (hfound : env.getScan = .found scan)
    (hnterm : ¬ (scan.status.phase = "Succeeded" ∨ scan.status.phase = "Failed"))
    (hjob : env.getJob = .notFound) :
    ScanReconciler.Reconcile env =
      ScanReconciler.reconcileCreateBranch env scan
        (if scan.status.jobName = "" then
          scanJobNameWithTimestamp env.hash8 scan.name scan.creationTimestamp
         else scan.status.jobName)
        (jobNamespaceFor scan.inNamespace scan.spec.jobNamespace) := by
  unfold ScanReconciler.Reconcile
  rw [hfound, hjob]
  simp [hnterm]

/-- C2: in the terminal branch of the scan reconciler the status-update call
is the first effect of the pass (so no metric precedes it), and whenever
that status update fails the pass emits zero metrics and returns the update
error. -/
theorem scan_terminal_metrics_after_persist (env : ScanEnv) (scan : ZapScan)
    (job : JobResource)
    (hfound : env.getScan = .found scan)
    (hnterm : ¬ (scan.status.phase = "Succeeded" ∨ scan.status.phase = "Failed"))
    (hjob : env.getJob = .found job)
    (hcomplete : (isJobComplete job).1 = true) :
    (∀ e, env.statusUpdate = some e →
      (ScanReconciler.Reconcile env).1 = .error e ∧
      ∀ eff ∈ (ScanReconciler.Reconcile env).2, eff.isMetric = false) ∧
    (∃ st rest, (ScanReconciler.Reconcile env).2 = Effect.scanStatusUpdate st :: rest) := by
  rw [ScanReconciler.reconcile_eq_terminal env scan job hfound hnterm hjob hcomplete]
  unfold ScanReconciler.reconcileTerminalBranch
  cases hupd : env.statusUpdate with
  | some x =>
    constructor
    · intro e he
      injection he with hxe
      subst hxe
      constructor
      · rfl
      · simp [Effect.isMetric]
    · exact ⟨_, _, rfl⟩
  | none =>
    constructor
    · intro e he
      simp at he
    · exact ⟨_, _, rfl⟩

/-- A concrete Running ZapScan whose job will be found complete. -/
def scanRunningW : ZapScan :=
  { name := "s2", inNamespace := "ns2", creationTimestamp := 5,
    controllerRef := none, spec := ⟨"http://t2", none⟩,
    status := ⟨"Running", "job-a", some 10, none, 0, ""⟩ }

/-- A concrete Job with a true Complete condition and a completion time. -/
def jobCompleteW : JobResource := ⟨"job-a", some 30, [⟨"Complete", "True", "", "", 30⟩]⟩

/-- A terminal-branch environment whose status update fails. -/
def envTermUpdFailW : ScanEnv :=
  { getScan := .found scanRunningW, getJob := .found jobCompleteW,
    setOwnerRef := none, createJob := .success, statusUpdate := some "ufail",
    podsForJob := .error "boom", logDeps := trivialLogDeps,
    hash8 := fun _ => "00000000", now := 100 }

/-- Witness for C2 at a concrete environment with a failing update. -/
theorem scan_terminal_metrics_after_persist_witness :
    (ScanReconciler.Reconcile envTermUpdFailW).1 = .error "ufail" ∧
    ∀ eff ∈ (ScanReconciler.Reconcile envTermUpdFailW).2, eff.isMetric = false :=
  (scan_terminal_metrics_after_persist envTermUpdFailW scanRunningW jobCompleteW
    rfl (by decide) rfl rfl).1 "ufail" rfl

/-- A terminal-branch environment whose alert collection fails (the pod
list call errors) while the job succeeded and the status update works. -/
def envCollectorErrW : ScanEnv :=
  { getScan := .found scanRunningW, getJob := .found jobCompleteW,
    setOwnerRef := none, createJob := .success, statusUpdate := none,
    podsForJob := .error "boom", logDeps := trivialLogDeps,
    hash8 := fun _ => "00000000", now := 100 }

/-- C3 counterexample: the Alert Collector errors with "boom", the pass
continues and persists a terminal status — but because the job succeeded
the persisted `lastError` is the empty string, not the collector's error
text (the success path clears it). -/
theorem scan_collector_error_cleared_cex :
    ScanReconciler.collectAlertsFromJobLogs envCollectorErrW.logDeps
        envCollectorErrW.podsForJob = .error "boom" ∧
    (ScanReconciler.Reconcile envCollectorErrW).2.filter Effect.isScanStatusUpdate =
      [Effect.scanStatusUpdate ⟨"Succeeded", "job-a", some 10, some 30, 0, ""⟩] ∧
    (ScanReconciler.Reconcile envCollectorErrW).1 = .ok ⟨0⟩ :=
  ⟨rfl, rfl, rfl⟩

/-- C3 amended: a collector error is non-fatal — the pass still finishes
with success and the final phase still comes from the terminal condition —
but the collector's error text survives into the persisted `lastError` only
when the final phase is Failed; when the unit succeeded, `lastError` is
cleared to empty before the persist. -/
theorem scan_collector_error_nonfatal (env : ScanEnv) (scan : ZapScan)
    (job : JobResource) (succ : Bool) (msg : String)
    (hfound : env.getScan = .found scan)
    (hnterm : ¬ (scan.status.phase = "Succeeded" ∨ scan.status.phase = "Failed"))
    (hjob : env.getJob = .found job)
    (hcs : isJobComplete job = (true, succ))
    (hcollect : ScanReconciler.collectAlertsFromJobLogs env.logDeps env.podsForJob
      = .error msg)
    (hmsg : msg ≠ "")
    (hupd : env.statusUpdate = none) :
    ∃ rest, (ScanReconciler.Reconcile env).1 = .ok ⟨0⟩ ∧
      ∃ st, (ScanReconciler.Reconcile env).2 = Effect.scanStatusUpdate st :: rest ∧
        st.phase = (if succ then "Succeeded" else "Failed") ∧
        st.lastError = (if succ then "" else msg) := by
  rw [ScanReconciler.reconcile_eq_terminal env scan job hfound hnterm hjob
    (by rw [hcs])]
  rw [hcs]
  unfold ScanReconciler.reconcileTerminalBranch
  rw [hcollect, hupd]
  cases succ with
  | true => exact ⟨_, rfl, _, rfl, rfl, rfl⟩
  | false =>
    refine ⟨_, rfl, _, rfl, rfl, ?_⟩
    simp [hmsg]

/-- Witness for the amended C3 theorem at a concrete environment. -/
theorem scan_collector_error_nonfatal_witness :
    ∃ rest, (ScanReconciler.Reconcile envCollectorErrW).1 = .ok ⟨0⟩ ∧
      ∃ st, (ScanReconciler.Reconcile envCollectorErrW).2 =
          Effect.scanStatusUpdate st :: rest ∧
        st.phase = (if true then "Succeeded" else "Failed") ∧
        st.lastError = (if true then "" else "boom") :=
  scan_collector_error_nonfatal envCollectorErrW scanRunningW jobCompleteW true "boom"
    rfl (by decide) rfl rfl rfl (by decide) rfl

/-- A concrete ZapScheduledScan, not suspended, default policy. -/
def schedOkW : ZapScheduledScan := ⟨"sch", "ns3", ⟨"* * * * *", none, none⟩, ⟨none⟩⟩

/-- A due scheduled-scan environment whose child create succeeds but whose
status update fails. -/
def envSchedUpdFailW : SchedEnv :=
  { getSched := .found schedOkW, cronParse := .ok (fun t => t + 1),
    listScans := .ok [], setOwnerRef := none, createScan := .success,
    statusUpdate := some "ufail2", now := 9 }

/-- C6 counterexample: the scheduled-scan reconciler's post-create status
update fails, yet the pass returns success — the Go code assigns the update
error to the blank identifier, so the failure is not propagated. -/
theorem sched_status_update_failure_swallowed_cex :
    envSchedUpdFailW.statusUpdate = some "ufail2" ∧
    ZapScheduledScanReconciler.Reconcile envSchedUpdFailW =
      (.ok ⟨5⟩, [Effect.createScanCall "sch-9" "ns3",
                 Effect.schedStatusUpdate (some 9)]) :=
  ⟨rfl, rfl⟩

/-- C6 amended: status-update failures are fatal exactly in the scan
reconciler's job-creation branch and terminal branch — there the update
error is returned to the caller; the scan reconciler's running-phase
refresh and both scheduled-scan status updates discard the error. -/
theorem scan_status_update_failure_fatal (env : ScanEnv) (scan : ZapScan)
    (e : String)
    (hfound : env.getScan = .found scan)
    (hnterm : ¬ (scan.status.phase = "Succeeded" ∨ scan.status.phase = "Failed"))
    (hupd : env.statusUpdate = some e) :
    (env.getJob = .notFound → scan.status.finishedAt = none →
      env.setOwnerRef = none →
      (env.createJob = .success ∨ env.createJob = .alreadyExists) →
      (ScanReconciler.Reconcile env).1 = .error e) ∧
    (∀ job, env.getJob = .found job → (isJobComplete job).1 = true →
      (ScanReconciler.Reconcile env).1 = .error e) := by
  constructor
  · intro hjob hfin hown hcr
    rw [ScanReconciler.reconcile_eq_create env scan hfound hnterm hjob]
    unfold ScanReconciler.reconcileCreateBranch
    rcases hcr with h | h <;> rw [hfin, hown, h, hupd] <;> simp
  · intro job hjob hcomp
    rw [ScanReconciler.reconcile_eq_terminal env scan job hfound hnterm hjob hcomp]
    unfold ScanReconciler.reconcileTerminalBranch
    rw [hupd]

/-- A concrete ZapScan with an entirely empty status. -/
def scanEmptyW : ZapScan :=
  { name := "s3", inNamespace := "ns6", creationTimestamp := 4,
    controllerRef := none, spec := ⟨"http://t3", none⟩,
    status := ⟨"", "", none, none, 0, ""⟩ }

/-- A job-creation-branch environment whose status update fails. -/
def envCreateUpdFailW : ScanEnv :=
  { getScan := .found scanEmptyW, getJob := .notFound, setOwnerRef := none,
    createJob := .success, statusUpdate := some "uc", podsForJob := .ok [],
    logDeps := trivialLogDeps, hash8 := fun _ => "abcd0123", now := 50 }

/-- Witness for the amended C6 theorem: both fatal update sites at concrete
environments. -/
theorem scan_status_update_failure_fatal_witness :
    (ScanReconciler.Reconcile envCreateUpdFailW).1 = .error "uc" ∧
    (ScanReconciler.Reconcile envTermUpdFailW).1 = .error "ufail" :=
  ⟨(scan_status_update_failure_fatal envCreateUpdFailW scanEmptyW "uc"
      rfl (by decide) rfl).1 rfl rfl rfl (Or.inl rfl),
   (scan_status_update_failure_fatal envTermUpdFailW scanRunningW "ufail"
      rfl (by decide) rfl).2 jobCompleteW rfl rfl⟩

/-- A concrete scheduled scan with policy Forbid and a recorded last run. -/
def schedForbidW : ZapScheduledScan :=
  ⟨"sf", "ns4", ⟨"* * * * *", none, some "Forbid"⟩, ⟨some 40⟩⟩

/-- A concrete active (Running) child owned by `schedForbidW`. -/
def activeChildW : ZapScan :=
  { name := "sf-10", inNamespace := "ns4", creationTimestamp := 10,
    controllerRef := some "sf", spec := ⟨"http://t4", none⟩,
    status := ⟨"Running", "j4", some 10, none, 0, ""⟩ }

/-- A due Forbid environment with one active child. -/
def envForbidW : SchedEnv :=
  { getSched := .found schedForbidW, cronParse := .ok (fun t => t + 60),
    listScans := .ok [activeChildW], setOwnerRef := none,
    createScan := .success, statusUpdate := none, now := 100 }

/-- C4 counterexample: the due, Forbid-blocked pass creates nothing and
advances lastScheduleTime, but its requeue delay is one minute, not the
claimed 5 seconds. -/
theorem sched_forbid_requeue_cex :
    ZapScheduledScanReconciler.Reconcile envForbidW =
      (.ok ⟨60⟩, [Effect.schedStatusUpdate (some 100)]) ∧
    (⟨60⟩ : ReconcileResult) ≠ ⟨5⟩ :=
  ⟨rfl, by decide⟩

/-- C4 amended: a due reconcile with policy Forbid and at least one active
child creates no ScanRequest, issues exactly one status update advancing
lastScheduleTime to now, and requeues after one minute (60 seconds), not
after 5 seconds. -/
theorem sched_forbid_skips_create (env : SchedEnv) (sched : ZapScheduledScan)
    (next : Int → Int) (s0 : ZapScan) (others : List ZapScan)
    (hfound : env.getSched = .found sched)
    (hsus : sched.spec.suspend ≠ some true)
    (hcron : env.cronParse = .ok next)
    (hdue : ¬ env.now < next (sched.status.lastScheduleTime.getD 0))
    (hpol : sched.spec.concurrencyPolicy = some "Forbid")
    (hactive : ZapScheduledScanReconciler.activeScans sched env.listScans =
      .ok (s0 :: others)) :
    ZapScheduledScanReconciler.Reconcile env =
      (.ok ⟨60⟩, [.schedStatusUpdate (some env.now)]) := by
  unfold ZapScheduledScanReconciler.Reconcile
  simp [hfound, hcron, hactive, hpol, hsus, hdue, resolveConcurrencyPolicy]

/-- Witness for the amended C4 theorem at the concrete Forbid environment. -/
theorem sched_forbid_skips_create_witness :
    ZapScheduledScanReconciler.Reconcile envForbidW =
      (.ok ⟨60⟩, [.schedStatusUpdate (some 100)]) :=
  sched_forbid_skips_create envForbidW schedForbidW (fun t => t + 60)
    activeChildW [] rfl (by decide) rfl (by decide) rfl rfl

/-- Delete-call effects never show up as scheduled-scan status updates. -/
theorem filter_schedUpdate_deleteEffs (l : List ZapScan) :
    (l.map fun s => Effect.deleteScanCall s.name).filter Effect.isSchedStatusUpdate
      = [] := by
  induction l with
  | nil => rfl
  | cons a t ih => simp [Effect.isSchedStatusUpdate, ih]

/-- A due pass whose create comes back already-exists returns the 5-second
requeue immediately, performing only the (policy-dependent) deletes and the
create call. -/
theorem sched_reconcile_already_exists_eq (env : SchedEnv)
    (sched : ZapScheduledScan) (next : Int → Int) (active : List ZapScan)
    (hfound : env.getSched = .found sched)
    (hsus : sched.spec.suspend ≠ some true)
    (hcron : env.cronParse = .ok next)
    (hdue : ¬ env.now < next (sched.status.lastScheduleTime.getD 0))
    (hactive : ZapScheduledScanReconciler.activeScans sched env.listScans = .ok active)
    (hnf : ¬ (resolveConcurrencyPolicy sched.spec.concurrencyPolicy = "Forbid" ∧
      active ≠ []))
    (hown : env.setOwnerRef = none)
    (hcr : env.createScan = .alreadyExists) :
    ZapScheduledScanReconciler.Reconcile env =
      (.ok ⟨5⟩,
        (if resolveConcurrencyPolicy sched.spec.concurrencyPolicy = "Replace" ∧
            active ≠ [] then
          active.map fun s => Effect.deleteScanCall s.name
         else []) ++
        [.createScanCall (sched.name ++ "-" ++ toString env.now) sched.inNamespace]) := by
  unfold ZapScheduledScanReconciler.Reconcile
  simp [hfound, hcron, hactive, hsus, hdue, hnf, hown, hcr]

/-- C5 amended: an already-exists answer to the child create is treated as
success with the same 5-second requeue as a successful create, but — unlike
the successful-create path — the pass returns before setting
lastScheduleTime, so no scheduled-scan status update is issued at all. -/
theorem sched_already_exists_success (env : SchedEnv)
    (sched : ZapScheduledScan) (next : Int → Int) (active : List ZapScan)
    (hfound : env.getSched = .found sched)
    (hsus : sched.spec.suspend ≠ some true)
    (hcron : env.cronParse = .ok next)
    (hdue : ¬ env.now < next (sched.status.lastScheduleTime.getD 0))
    (hactive : ZapScheduledScanReconciler.activeScans sched env.listScans = .ok active)
    (hnf : ¬ (resolveConcurrencyPolicy sched.spec.concurrencyPolicy = "Forbid" ∧
      active ≠ []))
    (hown : env.setOwnerRef = none)
    (hcr : env.createScan = .alreadyExists) :
    (ZapScheduledScanReconciler.Reconcile env).1 = .ok ⟨5⟩ ∧
    (ZapScheduledScanReconciler.Reconcile env).2.filter Effect.isSchedStatusUpdate
      = [] := by
  rw [sched_reconcile_already_exists_eq env sched next active hfound hsus hcron hdue
    hactive hnf hown hcr]
  constructor
  · rfl
  · by_cases hr : resolveConcurrencyPolicy sched.spec.concurrencyPolicy = "Replace" ∧
      active ≠ []
    · simp [hr, List.filter_append, filter_schedUpdate_deleteEffs,
        Effect.isSchedStatusUpdate]
    · simp [hr, Effect.isSchedStatusUpdate]

/-- A concrete due scheduled scan with default policy and stale last run. -/
def schedAW : ZapScheduledScan := ⟨"sa", "ns5", ⟨"* * * * *", none, none⟩, ⟨some 2⟩⟩

/-- A due environment whose child create answers already-exists. -/
def envAlreadyW : SchedEnv :=
  { getSched := .found schedAW, cronParse := .ok (fun t => t + 1),
    listScans := .ok [], setOwnerRef := none, createScan := .alreadyExists,
    statusUpdate := none, now := 9 }

/-- C5 counterexample: on already-exists the pass requeues after 5 seconds
but issues no status update — lastScheduleTime is not advanced, unlike the
successful-create path. -/
theorem sched_already_exists_cex :
    ZapScheduledScanReconciler.Reconcile envAlreadyW =
      (.ok ⟨5⟩, [Effect.createScanCall "sa-9" "ns5"]) ∧
    (ZapScheduledScanReconciler.Reconcile envAlreadyW).2.filter
      Effect.isSchedStatusUpdate = [] :=
  ⟨rfl, rfl⟩

/-- Witness for the amended C5 theorem at the concrete environment. -/
theorem sched_already_exists_success_witness :
    (ZapScheduledScanReconciler.Reconcile envAlreadyW).1 = .ok ⟨5⟩ ∧
    (ZapScheduledScanReconciler.Reconcile envAlreadyW).2.filter
      Effect.isSchedStatusUpdate = [] :=
  sched_already_exists_success envAlreadyW schedAW (fun t => t + 1) []
    rfl (by decide) rfl (by decide) rfl (by decide) rfl rfl

/-- The exec-read pod loop leaves the state untouched when no pod in the
list is Running. -/
theorem collectPodReportLoop_all_skip (deps : PodReportDeps)
    (pods : List PodInfo) (st : Bool × AlertAcc)
    (h : ∀ p ∈ pods, p.phase ≠ "Running") :
    collectPodReportLoop deps pods st = .ok st := by
  induction pods generalizing st with
  | nil => rfl
  | cons q t ih =>
    have hq : q.phase ≠ "Running" := h q (by simp)
    simp only [collectPodReportLoop, if_pos hq]
    exact ih st fun p hp => h p (by simp [hp])

/-- The exec-read pod loop errors whenever some Running pod in the list has
a readable report file whose content fails to decode. -/
theorem collectPodReportLoop_decode_error (deps : PodReportDeps)
    (pods : List PodInfo) (st : Bool × AlertAcc) (p : PodInfo)
    (c : String) (e : String)
    (hp : p ∈ pods) (hrun : p.phase = "Running")
    (hread : deps.readFileFromPod p.ns p.name "zap" "/zap/wrk/zap.json" = .ok c)
    (hdec : deps.decode c = .error e) :
    ∃ e2, collectPodReportLoop deps pods st = .error e2 := by
  induction pods generalizing st with
  | nil => cases hp
  | cons q t ih =>
    by_cases hq : q.phase ≠ "Running"
    · have hpt : p ∈ t := by
        rcases List.mem_cons.mp hp with h | h
        · rw [h] at hrun
          exact absurd hrun hq
        · exact h
      simp only [collectPodReportLoop, if_pos hq]
      exact ih st hpt
    · cases hr : deps.readFileFromPod q.ns q.name "zap" "/zap/wrk/zap.json" with
      | error e0 =>
        refine ⟨e0, ?_⟩
        simp only [collectPodReportLoop, if_neg hq, hr]
      | ok c0 =>
        cases hd : deps.decode c0 with
        | error e1 =>
          refine ⟨e1, ?_⟩
          simp only [collectPodReportLoop, if_neg hq, hr, hd]
        | ok rep =>
          have hpt : p ∈ t := by
            rcases List.mem_cons.mp hp with h | h
            · rw [h] at hread
              rw [hread] at hr
              injection hr with hc
              rw [← hc] at hd
              rw [hdec] at hd
              cases hd
            · exact h
          obtain ⟨e2, he2⟩ := ih (true, accumReport rep st.2) hpt
          refine ⟨e2, ?_⟩
          simp only [collectPodReportLoop, if_neg hq, hr, hd]
          exact he2

/-- C8: exec-read collection returns the empty aggregate without error when
no pod of the unit is Running, and errors (aborting the pass) whenever a
Running pod's report file content fails to decode. -/
theorem pod_report_collect_semantics (deps : PodReportDeps)
    (pods : List PodInfo) :
    ((∀ p ∈ pods, p.phase ≠ "Running") →
      ScanReconciler.collectAlertsFromPodReport deps (.ok pods) = .ok ⟨0, []⟩) ∧
    (∀ p ∈ pods, p.phase = "Running" →
      ∀ c e, deps.readFileFromPod p.ns p.name "zap" "/zap/wrk/zap.json" = .ok c →
        deps.decode c = .error e →
        ∃ e2, ScanReconciler.collectAlertsFromPodReport deps (.ok pods)
          = .error e2) := by
  constructor
  · intro h
    simp only [ScanReconciler.collectAlertsFromPodReport]
    by_cases he : pods = []
    · simp [he]
    · rw [if_neg he, collectPodReportLoop_all_skip deps pods (false, 0, []) h]
      rfl
  · intro p hp hrun c e hread hdec
    obtain ⟨e2, he2⟩ :=
      collectPodReportLoop_decode_error deps pods (false, 0, []) p c e hp hrun
        hread hdec
    refine ⟨e2, ?_⟩
    have hne : pods ≠ [] := by
      intro h0
      rw [h0] at hp
      cases hp
    simp only [ScanReconciler.collectAlertsFromPodReport]
    rw [if_neg hne, he2]

/-- Concrete exec-read capabilities: the file reads back fine but its
content does not decode. -/
def wPodDepsBad : PodReportDeps :=
  ⟨fun _ _ _ _ => .ok "not json", fun _ => .error "bad shape"⟩

/-- A Running pod and a Pending pod for the collector witnesses. -/
def wPodRunning : PodInfo := ⟨"nsw", "pod-r", "Running"⟩

/-- A pod that is not Running. -/
def wPodPending : PodInfo := ⟨"nsw", "pod-p", "Pending"⟩

/-- Witness for C8: both conjuncts at concrete inputs. -/
theorem pod_report_collect_semantics_witness :
    ScanReconciler.collectAlertsFromPodReport wPodDepsBad (.ok [wPodPending])
      = .ok ⟨0, []⟩ ∧
    ∃ e2, ScanReconciler.collectAlertsFromPodReport wPodDepsBad
      (.ok [wPodPending, wPodRunning]) = .error e2 :=
  ⟨(pod_report_collect_semantics wPodDepsBad [wPodPending]).1
      (by intro p hp; simp at hp; rw [hp]; decide),
   (pod_report_collect_semantics wPodDepsBad [wPodPending, wPodRunning]).2
      wPodRunning (by simp) rfl "not json" "bad shape" rfl rfl⟩

/-- C10: in the log-scrape collector a failure to fetch a pod's logs aborts
the whole collection with that error (the accumulated state `st` is
discarded and no aggregate is returned), while a missing begin marker or a
decode failure only skips that pod and the loop continues with the rest. -/
theorem log_collect_failure_semantics (deps : LogCollectDeps) (p : PodInfo)
    (rest : List PodInfo) (st : AlertAcc) :
    (∀ e, deps.getPodLogs p.ns p.name "reporter" = .error e →
      collectLogsLoop deps (p :: rest) st = .error e ∧
      ScanReconciler.collectAlertsFromJobLogs deps (.ok (p :: rest)) = .error e) ∧
    (∀ text, deps.getPodLogs p.ns p.name "reporter" = .ok text →
      extractCandidate text = none →
      collectLogsLoop deps (p :: rest) st = collectLogsLoop deps rest st) ∧
    (∀ text cand e, deps.getPodLogs p.ns p.name "reporter" = .ok text →
      extractCandidate text = some cand →
      deps.decode cand = .error e →
      collectLogsLoop deps (p :: rest) st = collectLogsLoop deps rest st) := by
  refine ⟨?_, ?_, ?_⟩
  · intro e he
    constructor
    · simp only [collectLogsLoop, he]
    · have hloop : collectLogsLoop deps (p :: rest) (0, []) = .error e := by
        simp only [collectLogsLoop, he]
      simp only [ScanReconciler.collectAlertsFromJobLogs]
      rw [if_neg (by simp : ¬ p :: rest = ([] : List PodInfo)), hloop]
  · intro text ht hcand
    simp only [collectLogsLoop, ht, processLogText, hcand]
  · intro text cand e ht hcand hdec
    simp only [collectLogsLoop, ht, processLogText, hcand, hdec]

/-- A pod whose log fetch fails. -/
def wLogDepsErr : LogCollectDeps :=
  ⟨fun _ _ _ => .error "fetchfail", fun _ => .error "x"⟩

/-- Logs come back fine but contain no begin marker. -/
def wLogDepsNoMarker : LogCollectDeps :=
  ⟨fun _ _ _ => .ok "hello", fun _ => .error "x"⟩

/-- Logs contain the marker and a brace but the candidate does not decode. -/
def wLogDepsBadJson : LogCollectDeps :=
  ⟨fun _ _ _ => .ok "zap-operator: begin zap.json \x7bbad",
   fun _ => .error "badjson"⟩

/-- Witness for C10: all three failure behaviors at concrete inputs. -/
theorem log_collect_failure_semantics_witness :
    (collectLogsLoop wLogDepsErr [wPodRunning] (0, []) = .error "fetchfail" ∧
      ScanReconciler.collectAlertsFromJobLogs wLogDepsErr (.ok [wPodRunning])
        = .error "fetchfail") ∧
    collectLogsLoop wLogDepsNoMarker [wPodRunning] (0, []) =
      collectLogsLoop wLogDepsNoMarker [] (0, []) ∧
    collectLogsLoop wLogDepsBadJson [wPodRunning] (0, []) =
      collectLogsLoop wLogDepsBadJson [] (0, []) :=
  ⟨(log_collect_failure_semantics wLogDepsErr wPodRunning [] (0, [])).1
      "fetchfail" rfl,
   (log_collect_failure_semantics wLogDepsNoMarker wPodRunning [] (0, [])).2.1
      "hello" rfl (by decide),
   (log_collect_failure_semantics wLogDepsBadJson wPodRunning [] (0, [])).2.2
      "zap-operator: begin zap.json \x7bbad" "\x7bbad" "badjson" rfl (by decide) rfl⟩
